import Mathlib

/-!
Verification of the Allium supervisory daemon (`crates/alliumd/src/alliumd.rs`).

This file gives a shallow embedding of the daemon's state and the operations
the spec talks about: volume/brightness adjustment, the menu-key hotkey
router (`handle_key_event`), the shutdown transition (`handle_quit`), the
battery-refresh check of the event loop, the charging-block tick, the child
termination protocol (`terminate`), play-time accounting
(`update_play_time`), and state persistence (`load`/`save`).

Machine integers are modelled as `Int`/`Nat` with explicit wrap-around where
the Rust code performs fixed-width arithmetic (`i8` for brightness, `i32`
for volume).  Side effects (signals, spawned helper binaries, platform
calls, file writes) are modelled as an explicit list of `Action`s returned
alongside the updated state.  Instants are modelled as `Nat` timestamps;
elapsed time is natural subtraction.
-/

namespace Alliumd

/-- Physical keys, as used by the daemon (`common::platform::Key`). -/
inductive Key where
  | up | down | left | right
  | a | b | x | y
  | start | select | l | r
  | menu | volDown | volUp | power | lidClose
  deriving DecidableEq, Repr, Fintype

/-- Raw input events (`common::platform::KeyEvent`). -/
inductive KeyEvent where
  | pressed (k : Key)
  | released (k : Key)
  | autorepeat (k : Key)
  deriving DecidableEq, Repr

/-- `common::power::PowerButtonAction`. -/
inductive PowerButtonAction where
  | suspendAct | shutdownAct | nothing
  deriving DecidableEq, Repr

/-- The fields of `common::power::PowerSettings` the daemon reads. -/
structure PowerSettings where
  power_button_action : PowerButtonAction
  lid_close_action : PowerButtonAction
  auto_sleep_duration_minutes : Nat
  auto_sleep_when_charging : Bool
  deriving DecidableEq, Repr

/-- The persisted daemon state (`AlliumDState`): timestamp (`DateTime<Utc>`
modelled as a `Nat` epoch), `volume : i32` modelled as `Int`, and
`brightness : u8` modelled as `Nat` (< 256 in any reachable state). -/
structure AlliumDState where
  time : Nat
  volume : Int
  brightness : Nat
  deriving DecidableEq, Repr

/-- Observable side effects of the daemon, in program order. -/
inductive Action where
  | sigstopMain | sigcontMain
  | sigstopMenu | sigcontMenu
  | showHotkeys
  | setVolume (v : Int)
  | setBrightness (b : Nat)
  | screenshot
  | quit
  | suspendDevice
  | terminateMenu
  | spawnMenu
  | saveState (s : AlliumDState)
  | updatePlayTimeCall
  | terminateMain
  | showDarken
  | sayPoweringOff
  | powerOff
  | addPlayTime (secs : Int)
  | sigterm | sigkill
  | removeStateFile
  | setSystemClock (t : Nat)
  deriving DecidableEq, Repr

/-- The in-memory daemon (`AlliumD`), restricted to the fields the verified
operations touch.  `menu` records whether a menu-overlay child handle is
held (`self.menu.is_some()`). -/
structure AlliumD where
  keys : Key → Bool
  is_menu_pressed_alone : Bool
  pressed_menu : Nat
  is_terminating : Bool
  state : AlliumDState
  power_settings : PowerSettings
  menu : Bool

/-- Environment facts an event-handling step consults: the current instant,
whether a game-info file exists (`is_ingame()`), and the result of
`GameInfo::load()` — `some has_menu` when a session parses, `none` when
there is no session. -/
structure KCtx where
  now : Nat
  ingame : Bool
  game_info : Option Bool
  deriving DecidableEq, Repr

/-- Rust's `clamp(lo, hi)`: `lo` if below, `hi` if above, identity inside. -/
def rclamp (x lo hi : Int) : Int :=
  if x < lo then lo else if hi < x then hi else x

/-- Two's-complement wrap-around into the `i8` range `[-128, 127]`. -/
def wrapI8 (x : Int) : Int :=
  (x + 2 ^ 7) % 2 ^ 8 - 2 ^ 7

/-- Two's-complement wrap-around into the `i32` range. -/
def wrapI32 (x : Int) : Int :=
  (x + 2 ^ 31) % 2 ^ 32 - 2 ^ 31

/-- `AlliumD::add_volume`: `self.state.volume = (self.state.volume + add).clamp(0, 20)`
followed by `platform.set_volume`. -/
def add_volume (st : AlliumDState) (add : Int) : AlliumDState × Action :=
  let v := rclamp (wrapI32 (st.volume + add)) 0 20
  ({ st with volume := v }, Action.setVolume v)

/-- `AlliumD::add_brightness`:
`self.state.brightness = (self.state.brightness as i8 + add).clamp(0, 100) as u8`
followed by `platform.set_brightness`.  The `u8 → i8` reinterpretation and
the wrapping `i8` addition are modelled explicitly. -/
def add_brightness (st : AlliumDState) (add : Int) : AlliumDState × Action :=
  let b := (rclamp (wrapI8 (wrapI8 st.brightness + add)) 0 100).toNat
  ({ st with brightness := b }, Action.setBrightness b)

/-- The adjustment requests the router actually issues: volume ±1,
brightness ±5. -/
inductive AdjOp where
  | volUp | volDown | brightUp | brightDown
  deriving DecidableEq, Repr

/-- One adjustment, as dispatched by `handle_key_event`. -/
def applyOp (st : AlliumDState) (op : AdjOp) : AlliumDState :=
  match op with
  | .volUp => (add_volume st 1).1
  | .volDown => (add_volume st (-1)).1
  | .brightUp => (add_brightness st 5).1
  | .brightDown => (add_brightness st (-5)).1

/-- A finite sequence of adjustments. -/
def applyOps (st : AlliumDState) (ops : List AdjOp) : AlliumDState :=
  ops.foldl applyOp st

/-- All keys of the `EnumMap` (the closed `Key` enumeration). -/
def allKeys : List Key :=
  [.up, .down, .left, .right, .a, .b, .x, .y, .start, .select, .l, .r,
   .menu, .volDown, .volUp, .power, .lidClose]

/-- First phase of `handle_key_event`: maintain `is_menu_pressed_alone` and
`pressed_menu` — `Pressed(Menu)` sets the alone flag and records the press
instant, any other `Pressed` clears it, `Released`/`Autorepeat` leave it. -/
def updateMenuAlone (d : AlliumD) (now : Nat) (ev : KeyEvent) : AlliumD :=
  match ev with
  | .pressed .menu => { d with is_menu_pressed_alone := true, pressed_menu := now }
  | .pressed _ => { d with is_menu_pressed_alone := false }
  | .released _ => d
  | .autorepeat _ => d

/-- Point update of the key-press map (`self.keys[key] = b`). -/
def setKey (f : Key → Bool) (k : Key) (b : Bool) : Key → Bool :=
  fun q => if q = k then b else f q

/-- Second phase of `handle_key_event`: maintain the key-press map. -/
def updateKeys (d : AlliumD) (ev : KeyEvent) : AlliumD :=
  match ev with
  | .pressed k => { d with keys := setKey d.keys k true }
  | .released k => { d with keys := setKey d.keys k false }
  | .autorepeat _ => d

/-- The global-hotkey branch of `handle_key_event`, taken when
`self.keys[Key::Menu]` holds after the press-map update. -/
def hotkeyBranch (lp : Nat) (d : AlliumD) (ctx : KCtx) (ev : KeyEvent) :
    AlliumD × List Action :=
  match ev with
  | .autorepeat .menu =>
    if d.is_menu_pressed_alone && decide (lp ≤ ctx.now - d.pressed_menu) then
      ({ d with is_menu_pressed_alone := false },
       [Action.sigstopMain]
         ++ (if d.menu then [Action.sigstopMenu] else [])
         ++ [Action.showHotkeys, Action.sigcontMain]
         ++ (if d.menu then [Action.sigcontMenu] else []))
    else (d, [])
  | .pressed .up | .pressed .volUp | .autorepeat .up | .autorepeat .volUp =>
    let r := add_brightness d.state 5
    ({ d with state := r.1 }, [r.2])
  | .pressed .down | .pressed .volDown | .autorepeat .down | .autorepeat .volDown =>
    let r := add_brightness d.state (-5)
    ({ d with state := r.1 }, [r.2])
  | .pressed .left | .autorepeat .left =>
    let r := add_volume d.state (-1)
    ({ d with state := r.1 }, [r.2])
  | .pressed .right | .autorepeat .right =>
    let r := add_volume d.state 1
    ({ d with state := r.1 }, [r.2])
  | .released .power => (d, [Action.screenshot])
  | _ => (d, [])

/-- Dispatch on a configured power action (the two `match` statements over
`power_button_action` / `lid_close_action`). -/
def powerActionDispatch (a : PowerButtonAction) : List Action :=
  match a with
  | .suspendAct => [Action.suspendDevice]
  | .shutdownAct => [Action.quit]
  | .nothing => []

/-- The non-hotkey branch of `handle_key_event`, taken when
`self.keys[Key::Menu]` is false after the press-map update (in particular
for `Released(Menu)` itself). -/
def normalBranch (d : AlliumD) (ctx : KCtx) (ev : KeyEvent) :
    AlliumD × List Action :=
  match ev with
  | .pressed .volDown | .autorepeat .volDown =>
    let r := add_volume d.state (-1)
    ({ d with state := r.1 }, [r.2])
  | .pressed .volUp | .autorepeat .volUp =>
    let r := add_volume d.state 1
    ({ d with state := r.1 }, [r.2])
  | .autorepeat .power =>
    if !d.keys Key.menu then (d, [Action.quit]) else (d, [])
  | .released .power =>
    if !d.keys Key.menu then (d, powerActionDispatch d.power_settings.power_button_action)
    else (d, [])
  | .pressed .lidClose =>
    (d, powerActionDispatch d.power_settings.lid_close_action)
  | .released .menu =>
    if d.is_menu_pressed_alone then
      let r :=
        if ctx.ingame && allKeys.all (fun k => k == Key.menu || !d.keys k) then
          match ctx.game_info with
          | some has_menu =>
            if d.menu then ([Action.terminateMenu], d.menu)
            else if has_menu then ([Action.spawnMenu], true)
            else ([], d.menu)
          | none => ([], d.menu)
        else ([], d.menu)
      ({ d with is_menu_pressed_alone := false, menu := r.2 }, r.1)
    else (d, [])
  | _ => (d, [])

/-- `AlliumD::handle_key_event`, with `lp` the `LONG_PRESS_DURATION`
constant (held abstract: it lives outside the embedded crate). -/
def handle_key_event (lp : Nat) (d : AlliumD) (ctx : KCtx) (ev : KeyEvent) :
    AlliumD × List Action :=
  let d1 := updateMenuAlone d ctx.now ev
  let d2 := updateKeys d1 ev
  if d2.keys Key.menu then hotkeyBranch lp d2 ctx ev
  else normalBranch d2 ctx ev

/-- `AlliumD::handle_quit`: no-op when `is_terminating` is already set;
otherwise refresh the state timestamp, save, account play time and stop the
menu overlay when in a game, terminate the main child, set
`is_terminating`, darken, announce, and power off. -/
def handle_quit (d : AlliumD) (now : Nat) (ingame : Bool) :
    AlliumD × List Action :=
  if d.is_terminating then (d, [])
  else
    let st := { d.state with time := now }
    ({ d with state := st, is_terminating := true },
     [Action.saveState st]
       ++ (if ingame then
             [Action.updatePlayTimeCall] ++ (if d.menu then [Action.terminateMenu] else [])
           else [])
       ++ [Action.terminateMain, Action.showDarken, Action.sayPoweringOff,
           Action.powerOff])

/-- The battery-refresh step of `run_event_loop`: after updating the
battery, invoke `handle_quit` exactly when
`percentage <= BATTERY_SHUTDOWN_THRESHOLD && !charging`.  The first
component records whether `handle_quit` was invoked; `threshold` is the
`BATTERY_SHUTDOWN_THRESHOLD` constant (held abstract: it lives outside the
embedded crate). -/
def batteryRefreshStep (threshold percentage : Int) (charging : Bool)
    (d : AlliumD) (now : Nat) (ingame : Bool) :
    Bool × AlliumD × List Action :=
  if decide (percentage ≤ threshold) && !charging then
    (true, handle_quit d now ingame)
  else (false, d, [])

/-- The one-second tick of the `handle_charging` nested loop: refresh the
battery and, when no longer charging, invoke `platform.shutdown()`
directly. -/
def chargingTick (charging : Bool) : List Action :=
  if !charging then [Action.powerOff] else []

/-- `GRACE_WINDOW`: the 5-second bound of `terminate`
(`Duration::from_secs(5)` in the source), in seconds. -/
def GRACE_WINDOW : Nat := 5

/-- The timed signal trace of `terminate(child)`: `SIGTERM` at time 0, then
a wait bounded by `GRACE_WINDOW`; `SIGKILL` at time `GRACE_WINDOW` exactly
when the wait timed out.  `exitAfterTerm` is the child's exit time after
the `SIGTERM` (`none` = the child never exits). -/
def terminateTrace (exitAfterTerm : Option Nat) : List (Nat × Action) :=
  (0, Action.sigterm) ::
    (match exitAfterTerm with
     | some t => if t < GRACE_WINDOW then [] else [(GRACE_WINDOW, Action.sigkill)]
     | none => [(GRACE_WINDOW, Action.sigkill)])

/-- The instant at which `terminate(child)` returns: when the child exits
at `t < GRACE_WINDOW` the bounded wait completes at `t`; otherwise the
timeout fires at `GRACE_WINDOW` and the call returns right after sending
`SIGKILL` (it does not wait again). -/
def terminateReturnTime (exitAfterTerm : Option Nat) : Nat :=
  match exitAfterTerm with
  | some t => min t GRACE_WINDOW
  | none => GRACE_WINDOW

/-- 24 hours in seconds (`Duration::hours(24)`). -/
def HOURS24_SECS : Int := 24 * 60 * 60

/-- `AlliumD::update_play_time` on a session that loaded successfully:
no-op when not in a game; discard (no write, no error) when the computed
play time exceeds 24 hours; otherwise forward the play time to
`database.add_play_time`. -/
def update_play_time (ingame : Bool) (play_time : Int) : List Action :=
  if !ingame then []
  else if HOURS24_SECS < play_time then []
  else [Action.addPlayTime play_time]

/-- Content of the persisted state file: absent, present-but-unparsable, or
a record that parses to a state. -/
inductive FileContent where
  | absent
  | corrupt
  | valid (s : AlliumDState)
  deriving DecidableEq, Repr

/-- `AlliumDState::new()`: the defaults, volume 0, brightness 50, current
time. -/
def AlliumDState.new (now : Nat) : AlliumDState :=
  { time := now, volume := 0, brightness := 50 }

/-- `AlliumDState::save`: serialize and overwrite the state file. -/
def save (s : AlliumDState) : FileContent :=
  FileContent.valid s

/-- `AlliumDState::load`: absent file → defaults; unparsable file → remove
it and return defaults (the parse failure is caught, not propagated); a
parsed record is returned as-is, additionally correcting the system clock
forward when the persisted timestamp is in the future.  The result carries
the loaded state, the file content afterwards, and the side effects. -/
def load (now : Nat) (fs : FileContent) :
    Except Unit (AlliumDState × FileContent × List Action) :=
  match fs with
  | .absent => .ok (AlliumDState.new now, .absent, [])
  | .corrupt => .ok (AlliumDState.new now, .absent, [Action.removeStateFile])
  | .valid s =>
    if now < s.time then .ok (s, .valid s, [Action.setSystemClock s.time])
    else .ok (s, .valid s, [])

/-- Trace predicate: every `powerOff` in the trace is preceded by some
`saveState` (the formalisation of "state is persisted before power-off"). -/
def savedBeforePowerOff : List Action → Bool
  | [] => true
  | Action.powerOff :: _ => false
  | Action.saveState _ :: _ => true
  | _ :: rest => savedBeforePowerOff rest

/-- The system-hotkey routing of a key pressed while Menu is held, as the
source's global-hotkeys `match` maps it: Up/VolUp → brightness +5,
Down/VolDown → brightness −5, Left → volume −1, Right → volume +1, and no
action for every other key. -/
def hotkeyPressActions (st : AlliumDState) (k : Key) : List Action :=
  match k with
  | .up | .volUp => [(add_brightness st 5).2]
  | .down | .volDown => [(add_brightness st (-5)).2]
  | .left => [(add_volume st (-1)).2]
  | .right => [(add_volume st 1).2]
  | _ => []

/-- A daemon that has already set its termination flag. -/
def dTerminating : AlliumD :=
  ⟨fun _ => false, false, 0, true, ⟨0, 5, 50⟩, ⟨.nothing, .nothing, 0, false⟩, false⟩

/-- A freshly started daemon, no key held, not terminating. -/
def dFresh : AlliumD :=
  ⟨fun _ => false, false, 0, false, ⟨7, 12, 60⟩, ⟨.nothing, .nothing, 0, false⟩, false⟩

/-- A daemon holding the Menu key alone (pressed at instant 0), with no
game running. -/
def dMenuHeld : AlliumD :=
  ⟨fun k => k == Key.menu, true, 0, false, ⟨0, 10, 50⟩,
   ⟨.nothing, .nothing, 0, false⟩, false⟩

theorem rclamp_bounds (x lo hi : Int) (h : lo ≤ hi) :
    lo ≤ rclamp x lo hi ∧ rclamp x lo hi ≤ hi := by
  unfold rclamp
  split
  · exact ⟨le_refl _, h⟩
  · split
    · exact ⟨h, le_refl _⟩
    · omega

theorem add_volume_bounds (st : AlliumDState) (a : Int) :
    0 ≤ (add_volume st a).1.volume ∧ (add_volume st a).1.volume ≤ 20 := by
  have := rclamp_bounds (wrapI32 (st.volume + a)) 0 20 (by norm_num)
  simpa [add_volume] using this

theorem add_brightness_bounds (st : AlliumDState) (a : Int) :
    (add_brightness st a).1.brightness ≤ 100 := by
  have h := rclamp_bounds (wrapI8 (wrapI8 st.brightness + a)) 0 100 (by norm_num)
  simp only [add_brightness]
  omega

/-- The in-range invariant on a persisted state. -/
def InRange (st : AlliumDState) : Prop :=
  0 ≤ st.volume ∧ st.volume ≤ 20 ∧ st.brightness ≤ 100

theorem applyOp_preserves (st : AlliumDState) (op : AdjOp) (h : InRange st) :
    InRange (applyOp st op) := by
  obtain ⟨h1, h2, h3⟩ := h
  cases op
  · exact ⟨(add_volume_bounds st 1).1, (add_volume_bounds st 1).2, by
      simpa [applyOp, add_volume] using h3⟩
  · exact ⟨(add_volume_bounds st (-1)).1, (add_volume_bounds st (-1)).2, by
      simpa [applyOp, add_volume] using h3⟩
  · exact ⟨by simpa [applyOp, add_brightness] using h1,
      by simpa [applyOp, add_brightness] using h2, add_brightness_bounds st 5⟩
  · exact ⟨by simpa [applyOp, add_brightness] using h1,
      by simpa [applyOp, add_brightness] using h2, add_brightness_bounds st (-5)⟩

theorem applyOps_preserves (ops : List AdjOp) (st : AlliumDState) (h : InRange st) :
    InRange (applyOps st ops) := by
  induction ops generalizing st with
  | nil => exact h
  | cons op rest ih => exact ih _ (applyOp_preserves st op h)

theorem mem_allKeys (k : Key) : k ∈ allKeys := by
  cases k <;> decide

theorem allKeys_check_iff (f : Key → Bool) :
    (allKeys.all (fun k => k == Key.menu || !(setKey f Key.menu false) k) = true) ↔
      ∀ k, k ≠ Key.menu → f k = false := by
  simp only [List.all_eq_true, Bool.or_eq_true, beq_iff_eq, Bool.not_eq_true', setKey]
  constructor
  · intro h k hk
    rcases h k (mem_allKeys k) with h1 | h1
    · exact absurd h1 hk
    · rwa [if_neg hk] at h1
  · intro h k _
    by_cases hk : k = Key.menu
    · exact Or.inl hk
    · exact Or.inr (by rw [if_neg hk]; exact h k hk)

theorem hke_preserves_is_terminating (lp : Nat) (d : AlliumD) (ctx : KCtx)
    (ev : KeyEvent) :
    (handle_key_event lp d ctx ev).1.is_terminating = d.is_terminating := by
  rcases ev with k | k | k <;> cases k <;>
    simp only [handle_key_event, updateMenuAlone, updateKeys, hotkeyBranch,
      normalBranch, powerActionDispatch, add_volume, add_brightness] <;>
    repeat' split <;> simp

/-- Claim C1: the shutdown transition is idempotent — after any invocation
of `handle_quit` the termination flag is set; a second invocation changes
nothing and performs no effect (so the persist/terminate/power-off sequence
runs exactly once); once the flag is set every further invocation is a
no-op; and no key-event handling ever changes the flag (it is never
reset). -/
theorem handle_quit_idempotent (d : AlliumD) (n n' : Nat) (g g' : Bool) :
    (handle_quit d n g).1.is_terminating = true ∧
    handle_quit (handle_quit d n g).1 n' g' = ((handle_quit d n g).1, []) ∧
    (d.is_terminating = true → handle_quit d n g = (d, [])) ∧
    (∀ lp ctx ev,
      (handle_key_event lp d ctx ev).1.is_terminating = d.is_terminating) := by
  refine ⟨?_, ?_, ?_, fun lp ctx ev => hke_preserves_is_terminating lp d ctx ev⟩ <;>
    by_cases h : d.is_terminating <;> simp [handle_quit, h]

/-- Witness for C1 at a concrete already-terminating daemon. -/
theorem handle_quit_idempotent_witness :
    handle_quit dTerminating 3 false = (dTerminating, []) :=
  (handle_quit_idempotent dTerminating 3 4 false true).2.2.1 rfl

/-- Claim C2: the battery-refresh step of the event loop invokes the
shutdown handler exactly when `percentage ≤ threshold` and not charging. -/
theorem battery_shutdown_iff (th p : Int) (c : Bool) (d : AlliumD) (now : Nat)
    (g : Bool) :
    (batteryRefreshStep th p c d now g).1 = true ↔ (p ≤ th ∧ c = false) := by
  by_cases hc : c <;> by_cases hp : p ≤ th <;>
    simp [batteryRefreshStep, hc, hp]

/-- Claim C3: starting in range, every finite sequence of the router's
volume (±1) and brightness (±5) adjustments keeps volume in [0,20] and
brightness in [0,100]; moreover any single request (any delta) yields an
in-range value — requests are clamped, never rejected. -/
theorem volume_brightness_invariant (st : AlliumDState) (ops : List AdjOp)
    (h : InRange st) :
    InRange (applyOps st ops) ∧
    (∀ a : Int, 0 ≤ (add_volume st a).1.volume ∧ (add_volume st a).1.volume ≤ 20) ∧
    (∀ a : Int, (add_brightness st a).1.brightness ≤ 100) :=
  ⟨applyOps_preserves ops st h, fun a => add_volume_bounds st a,
   fun a => add_brightness_bounds st a⟩

/-- Witness for C3 at a concrete state and adjustment sequence. -/
theorem volume_brightness_invariant_witness :
    InRange (applyOps ⟨0, 10, 50⟩ [AdjOp.volUp, AdjOp.brightDown, AdjOp.volUp]) :=
  (volume_brightness_invariant ⟨0, 10, 50⟩
    [AdjOp.volUp, AdjOp.brightDown, AdjOp.volUp] ⟨by decide, by decide, by decide⟩).1

/-- Claim C4: the termination protocol — a child exiting before the grace
window gets no `SIGKILL`; a child that never exits gets exactly one
`SIGKILL`, issued at (not before) the end of the grace window; and the call
returns within the grace window regardless of child behaviour. -/
theorem terminate_protocol (e : Option Nat) :
    (∀ t, e = some t → t < GRACE_WINDOW →
      (terminateTrace e).countP (fun p => p.2 == Action.sigkill) = 0) ∧
    (e = none →
      (terminateTrace e).countP (fun p => p.2 == Action.sigkill) = 1 ∧
      ∀ p ∈ terminateTrace e, p.2 = Action.sigkill → GRACE_WINDOW ≤ p.1) ∧
    terminateReturnTime e ≤ GRACE_WINDOW := by
  refine ⟨?_, ?_, ?_⟩
  · rintro t rfl ht
    simp only [terminateTrace, ht, if_true]
    decide
  · rintro rfl
    refine ⟨by decide, ?_⟩
    intro p hp hpk
    simp only [terminateTrace, List.mem_cons, List.not_mem_nil, or_false] at hp
    rcases hp with h | h
    · rw [h] at hpk
      exact absurd hpk (by decide)
    · rw [h]
  · cases e with
    | none => simp [terminateReturnTime]
    | some t => simp [terminateReturnTime]

/-- Witness for C4: a child exiting after 2 seconds gets no kill; a child
that never exits gets exactly one kill. -/
theorem terminate_protocol_witness :
    (terminateTrace (some 2)).countP (fun p => p.2 == Action.sigkill) = 0 ∧
    (terminateTrace none).countP (fun p => p.2 == Action.sigkill) = 1 :=
  ⟨(terminate_protocol (some 2)).1 2 rfl (by decide),
   ((terminate_protocol none).2.1 rfl).1⟩

/-- Claim C7: `update_play_time` forwards the elapsed play time to the
catalog iff it is at most 24 hours; a longer session is discarded with no
write (and the function is total — no error). -/
theorem play_time_recorded_iff (pt : Int) :
    (Action.addPlayTime pt ∈ update_play_time true pt ↔ pt ≤ HOURS24_SECS) ∧
    (HOURS24_SECS < pt → update_play_time true pt = []) := by
  constructor
  · by_cases h : HOURS24_SECS < pt
    · simp only [update_play_time, if_pos h]
      simp
      omega
    · simp only [update_play_time, if_neg h]
      simp
      omega
  · intro h
    simp [update_play_time, h]

/-- Witness for C7: a 25-hour session is discarded; a 100-second session is
recorded. -/
theorem play_time_recorded_iff_witness :
    update_play_time true 90000 = [] ∧
    Action.addPlayTime 100 ∈ update_play_time true 100 :=
  ⟨(play_time_recorded_iff 90000).2 (by decide),
   (play_time_recorded_iff 100).1.mpr (by decide)⟩

/-- Claim C8: round trip — `save` then `load` yields a state with the same
volume and brightness (here even the same state record). -/
theorem save_load_round_trip (s : AlliumDState) (now : Nat) :
    ∃ r, load now (save s) = .ok r ∧ r.1.volume = s.volume ∧
      r.1.brightness = s.brightness := by
  by_cases h : now < s.time
  · exact ⟨(s, .valid s, [Action.setSystemClock s.time]), by simp [load, save, h], rfl, rfl⟩
  · exact ⟨(s, .valid s, []), by simp [load, save, h], rfl, rfl⟩

/-- Claim C9: an absent state file loads as the defaults (volume 0,
brightness 50) with no side effect; an unparsable one is removed and loads
as the defaults; neither case is an error. -/
theorem load_degrades_to_defaults (now : Nat) :
    load now FileContent.absent = .ok (AlliumDState.new now, .absent, []) ∧
    load now FileContent.corrupt =
      .ok (AlliumDState.new now, .absent, [Action.removeStateFile]) ∧
    (AlliumDState.new now).volume = 0 ∧ (AlliumDState.new now).brightness = 50 :=
  ⟨rfl, rfl, rfl, rfl⟩

/-- Claim C5 counterexample: the charging-block tick taken when charging
stops invokes power-off with no preceding state write. -/
theorem charging_poweroff_unsaved :
    Action.powerOff ∈ chargingTick false ∧
    savedBeforePowerOff (chargingTick false) = false := by
  decide

/-- Claim C5 (amended): on the `handle_quit` path every power-off is
preceded by a state write, and (when not already terminating) the very
first effect is saving the state with the refreshed timestamp; the
charging-block path, by contrast, powers off without persisting. -/
theorem quit_saves_before_poweroff (d : AlliumD) (n : Nat) (g : Bool) :
    savedBeforePowerOff (handle_quit d n g).2 = true ∧
    (d.is_terminating = false →
      (handle_quit d n g).2.head? =
        some (Action.saveState { d.state with time := n })) := by
  by_cases h : d.is_terminating <;>
    simp [handle_quit, h, savedBeforePowerOff]

/-- Witness for C5 (amended) at a concrete non-terminating daemon. -/
theorem quit_saves_before_poweroff_witness :
    (handle_quit dFresh 9 true).2.head? =
      some (Action.saveState { dFresh.state with time := 9 }) :=
  (quit_saves_before_poweroff dFresh 9 true).2 rfl

/-- Claim C10: an `Autorepeat(Power)` event while Menu is not held always
invokes the shutdown handler, whatever the configured
`power_button_action` (the arm never consults it). -/
theorem power_autorepeat_forces_quit (lp : Nat) (d : AlliumD) (ctx : KCtx)
    (h : d.keys Key.menu = false) :
    (handle_key_event lp d ctx (KeyEvent.autorepeat Key.power)).2 =
      [Action.quit] := by
  simp [handle_key_event, updateMenuAlone, updateKeys, normalBranch, h]

/-- Witness for C10 at a daemon whose power-button action is `Nothing`. -/
theorem power_autorepeat_forces_quit_witness :
    (handle_key_event 2 dFresh ⟨0, false, none⟩
      (KeyEvent.autorepeat Key.power)).2 = [Action.quit] :=
  power_autorepeat_forces_quit 2 dFresh ⟨0, false, none⟩ rfl

theorem hke_long_press (lp : Nat) (d : AlliumD) (ctx : KCtx)
    (hm : d.keys Key.menu = true) (hA : d.is_menu_pressed_alone = true)
    (hlp : lp ≤ ctx.now - d.pressed_menu) :
    handle_key_event lp d ctx (.autorepeat .menu) =
      ({ d with is_menu_pressed_alone := false },
       [Action.sigstopMain] ++ (if d.menu then [Action.sigstopMenu] else [])
         ++ [Action.showHotkeys, Action.sigcontMain]
         ++ (if d.menu then [Action.sigcontMenu] else [])) := by
  simp [handle_key_event, updateMenuAlone, updateKeys, hotkeyBranch, hm, hA, hlp]

theorem hke_released_menu (lp : Nat) (d : AlliumD) (ctx : KCtx) :
    handle_key_event lp d ctx (.released .menu) =
      normalBranch { d with keys := setKey d.keys Key.menu false } ctx
        (.released .menu) := by
  simp [handle_key_event, updateMenuAlone, updateKeys, setKey]

theorem normalBranch_released_menu_notalone (d : AlliumD) (ctx : KCtx)
    (hA : d.is_menu_pressed_alone = false) :
    normalBranch d ctx (.released .menu) = (d, []) := by
  simp [normalBranch, hA]

theorem released_menu_toggle_iff (lp : Nat) (d : AlliumD) (ctx : KCtx)
    (hA : d.is_menu_pressed_alone = true) :
    (handle_key_event lp d ctx (.released .menu)).1.is_menu_pressed_alone = false ∧
    ((Action.terminateMenu ∈ (handle_key_event lp d ctx (.released .menu)).2 ∨
      Action.spawnMenu ∈ (handle_key_event lp d ctx (.released .menu)).2) ↔
      (ctx.ingame = true ∧ (∀ k, k ≠ Key.menu → d.keys k = false) ∧
       ∃ hm, ctx.game_info = some hm ∧ (d.menu = true ∨ hm = true))) := by
  rw [hke_released_menu]
  refine ⟨by simp [normalBranch, hA], ?_⟩
  by_cases hin : ctx.ingame = true
  · by_cases hfa : ∀ k, k ≠ Key.menu → d.keys k = false
    · have hall : (allKeys.all fun k =>
          k == Key.menu || !(setKey d.keys Key.menu false k)) = true :=
        (allKeys_check_iff d.keys).mpr hfa
      rcases hgi : ctx.game_info with _ | b
      · simp [normalBranch, hA, hin, hall, hgi]
      · cases hmenu : d.menu
        · cases hb : b
          · simp [normalBranch, hA, hin, hall, hgi, hmenu, hb, hfa]
          · simp [normalBranch, hA, hin, hall, hgi, hmenu, hb, hfa]
            exact hfa
        · cases hb : b
          · simp [normalBranch, hA, hin, hall, hgi, hmenu, hb, hfa]
            exact hfa
          · simp [normalBranch, hA, hin, hall, hgi, hmenu, hb, hfa]
            exact hfa
    · have hall : (allKeys.all fun k =>
          k == Key.menu || !(setKey d.keys Key.menu false k)) = false :=
        Bool.eq_false_iff.mpr (fun h => hfa ((allKeys_check_iff d.keys).mp h))
      simp [normalBranch, hA, hin, hall, hfa]
  · have hin' : ctx.ingame = false := Bool.eq_false_iff.mpr hin
    simp [normalBranch, hA, hin']

theorem pressed_other_routes_hotkey (lp : Nat) (d : AlliumD) (ctx : KCtx)
    (k : Key) (hk : k ≠ Key.menu) (hm : d.keys Key.menu = true) :
    (handle_key_event lp d ctx (.pressed k)).1.is_menu_pressed_alone = false ∧
    (handle_key_event lp d ctx (.pressed k)).2 = hotkeyPressActions d.state k := by
  cases k <;>
    first
    | exact absurd rfl hk
    | constructor <;>
        simp [handle_key_event, updateMenuAlone, updateKeys, hotkeyBranch,
          hotkeyPressActions, setKey, hm]

/-- Claim C6 counterexample: a daemon holding Menu alone with no game
running — releasing Menu fires no toggle-menu action at all, contradicting
the unconditional "releasing Menu while it was pressed alone fires the
toggle-menu-overlay action". -/
theorem menu_release_no_toggle_counterexample :
    dMenuHeld.is_menu_pressed_alone = true ∧
    dMenuHeld.keys Key.menu = true ∧
    (handle_key_event 2 dMenuHeld ⟨1, false, none⟩
      (KeyEvent.released Key.menu)).2 = [] := by
  decide

/-- Claim C6 (amended): (a) holding Menu alone until an autorepeat tick
with elapsed ≥ the long-press threshold fires show-hotkey-overlay and
clears the alone-flag, and the subsequent Menu release then fires nothing;
(b) releasing Menu while pressed alone clears the alone-flag and fires the
toggle-menu-overlay action (terminate or spawn the overlay) if and only if
a game is active, no other key is currently held, the game session loads,
and there is an overlay to terminate or the game's core supports a menu;
(c) pressing any other key while Menu is held clears the alone-flag and the
event is routed through the system-hotkey table (direction/volume keys
adjust brightness/volume; keys without a hotkey mapping produce no
action). -/
theorem menu_key_state_machine (lp : Nat) (d : AlliumD) (ctx ctx' : KCtx) :
    (d.keys Key.menu = true → d.is_menu_pressed_alone = true →
      lp ≤ ctx.now - d.pressed_menu →
      Action.showHotkeys ∈ (handle_key_event lp d ctx (.autorepeat .menu)).2 ∧
      (handle_key_event lp d ctx (.autorepeat .menu)).1.is_menu_pressed_alone
        = false ∧
      (handle_key_event lp (handle_key_event lp d ctx (.autorepeat .menu)).1
        ctx' (.released .menu)).2 = []) ∧
    (d.is_menu_pressed_alone = true →
      (handle_key_event lp d ctx (.released .menu)).1.is_menu_pressed_alone
        = false ∧
      ((Action.terminateMenu ∈ (handle_key_event lp d ctx (.released .menu)).2 ∨
        Action.spawnMenu ∈ (handle_key_event lp d ctx (.released .menu)).2) ↔
        (ctx.ingame = true ∧ (∀ k, k ≠ Key.menu → d.keys k = false) ∧
         ∃ hm, ctx.game_info = some hm ∧ (d.menu = true ∨ hm = true)))) ∧
    (∀ k, k ≠ Key.menu → d.keys Key.menu = true →
      (handle_key_event lp d ctx (.pressed k)).1.is_menu_pressed_alone
        = false ∧
      (handle_key_event lp d ctx (.pressed k)).2 = hotkeyPressActions d.state k) := by
  refine ⟨?_, ?_, ?_⟩
  · intro hm hA hlp
    rw [hke_long_press lp d ctx hm hA hlp]
    refine ⟨by simp, rfl, ?_⟩
    rw [hke_released_menu, normalBranch_released_menu_notalone _ _ rfl]
  · intro hA
    exact released_menu_toggle_iff lp d ctx hA
  · intro k hk hm
    exact pressed_other_routes_hotkey lp d ctx k hk hm

/-- Witness for C6 (amended): concrete long-press, toggle and chord
instances on a daemon holding Menu alone. -/
theorem menu_key_state_machine_witness :
    Action.showHotkeys ∈ (handle_key_event 2 dMenuHeld ⟨5, false, none⟩
      (KeyEvent.autorepeat Key.menu)).2 ∧
    (Action.terminateMenu ∈ (handle_key_event 2 dMenuHeld ⟨1, true, some true⟩
      (KeyEvent.released Key.menu)).2 ∨
     Action.spawnMenu ∈ (handle_key_event 2 dMenuHeld ⟨1, true, some true⟩
      (KeyEvent.released Key.menu)).2) ∧
    (handle_key_event 2 dMenuHeld ⟨1, false, none⟩
      (KeyEvent.pressed Key.a)).1.is_menu_pressed_alone = false :=
  ⟨((menu_key_state_machine 2 dMenuHeld ⟨5, false, none⟩ ⟨0, false, none⟩).1
      (by decide) rfl (by decide)).1,
   (((menu_key_state_machine 2 dMenuHeld ⟨1, true, some true⟩
      ⟨0, false, none⟩).2.1 rfl).2).mpr ⟨rfl, by decide, true, rfl, Or.inr rfl⟩,
   ((menu_key_state_machine 2 dMenuHeld ⟨1, false, none⟩
      ⟨0, false, none⟩).2.2 Key.a (by decide) (by decide)).1⟩

end Alliumd
